import Mathlib

/-!
Verification of the retrieval-augmented question-answering backend
(Next.js route handler, `app/api` route).

The route handler gathers candidate documents (live Brave web search or a
precomputed embedding table), ranks them by cosine similarity, streams a
grounded LLM answer with incremental persistence into a `message_history`
table, and produces follow-up questions.

External collaborators (OpenAI completion/embedding endpoints, Brave search,
Supabase/Postgres, the network fetch, the cheerio HTML parser, JS timers)
are modelled as explicit inputs: each definition below embeds the
repository's own logic, taking the outcomes of external calls as arguments.
JS numbers are modelled as real numbers, JS strings as Lean strings.
-/

/- ===================== JS string and whitespace utilities ===================== -/

/-- Truthiness of a JS string: the empty string is falsy, all others truthy. -/
def jsTruthyStr (s : String) : Bool := s ≠ ""

/-- Membership in the JS regex class `\s` (ASCII part: space, tab, newline,
carriage return, vertical tab, form feed). -/
def jsWhitespace (c : Char) : Bool :=
  c = ' ' || c = '\t' || c = '\n' || c = '\r' || c = '\x0b' || c = '\x0c'

/-- One pass of `replace(/\s+/g, ' ')` over a character list: the first
character of each maximal whitespace run is replaced by a single space and the
rest of the run is dropped.  `prevWs` records whether the previous character
was part of a whitespace run. -/
def collapseWsAux (prevWs : Bool) : List Char → List Char
  | [] => []
  | c :: cs =>
    if jsWhitespace c then
      if prevWs then collapseWsAux true cs else ' ' :: collapseWsAux true cs
    else c :: collapseWsAux false cs

/-- JS `String.prototype.replace(/\s+/g, ' ')`. -/
def collapseWs (s : String) : String := ⟨collapseWsAux false s.data⟩

/-- JS `String.prototype.trim()`: strip leading and trailing whitespace. -/
def jsTrim (s : String) : String :=
  ⟨((s.data.dropWhile jsWhitespace).reverse.dropWhile jsWhitespace).reverse⟩

/- ===================== HTML content extraction (cheerio calls) ===================== -/

/-- A parsed HTML DOM node, as produced by `cheerio.load`: either a text node
or an element with a tag name and children. -/
inductive HtmlNode where
  | textNode (s : String)
  | elem (tag : String) (children : List HtmlNode)
deriving Repr

/-- The tags removed by `extractMainContent` via
the selector in the source, in source order. -/
def removedTags : List String :=
  ["script", "style", "head", "nav", "footer", "iframe", "img"]

mutual
/-- Effect of the removal on one node: a node whose tag
matches the selector is deleted (with its whole subtree); otherwise its
children are pruned recursively. -/
def pruneNode : HtmlNode → Option HtmlNode
  | HtmlNode.textNode s => some (HtmlNode.textNode s)
  | HtmlNode.elem t cs =>
    if removedTags.contains t then none else some (HtmlNode.elem t (pruneList cs))

/-- Pruning of a list of sibling nodes. -/
def pruneList : List HtmlNode → List HtmlNode
  | [] => []
  | n :: ns =>
    match pruneNode n with
    | some m => m :: pruneList ns
    | none => pruneList ns
end

mutual
/-- Concatenated text of a node, as computed by cheerio's `.text()`. -/
def nodeText : HtmlNode → String
  | HtmlNode.textNode s => s
  | HtmlNode.elem _ cs => listText cs

/-- Concatenated text of a list of sibling nodes. -/
def listText : List HtmlNode → String
  | [] => ""
  | n :: ns => nodeText n ++ listText ns
end

/-- The source function `extractMainContent`: remove
`script, style, head, nav, footer, iframe, img`, take the text of the body,
collapse whitespace runs and trim.  The input is the parsed body subtree
(cheerio's parsing itself is the external collaborator). -/
def extractMainContent (body : List HtmlNode) : String :=
  jsTrim (collapseWs (listText (pruneList body)))

/- ===================== Cosine similarity ===================== -/

/-- The `dotProduct` reduction of the source `cosineSimilarity`
(`vecA.reduce((sum, a, idx) => sum + a * vecB[idx], 0)`); an out-of-range
index is modelled as 0, which never arises for equal-length vectors. -/
noncomputable def dotProduct (vecA vecB : List ℝ) : ℝ :=
  vecA.enum.foldl (fun sum p => sum + p.2 * vecB.getD p.1 0) 0

/-- The `magnitude` computation of the source `cosineSimilarity`:
`Math.sqrt(vec.reduce((sum, val) => sum + val * val, 0))`. -/
noncomputable def magnitude (vec : List ℝ) : ℝ :=
  Real.sqrt (vec.foldl (fun sum val => sum + val * val) 0)

/-- The divisor of the unguarded division in `cosineSimilarity`. -/
noncomputable def cosineDenominator (vecA vecB : List ℝ) : ℝ :=
  magnitude vecA * magnitude vecB

/-- The source function `cosineSimilarity`. -/
noncomputable def cosineSimilarity (vecA vecB : List ℝ) : ℝ :=
  dotProduct vecA vecB / (magnitude vecA * magnitude vecB)

/-- Spec-side dot product: sum of pointwise products
(defined from the spec's words, for comparison with `dotProduct`). -/
noncomputable def specDotProduct (a b : List ℝ) : ℝ :=
  ((a.zip b).map (fun p => p.1 * p.2)).sum

/-- Spec-side sum of squares of a vector. -/
noncomputable def sumOfSquares (v : List ℝ) : ℝ :=
  (v.map (fun x => x * x)).sum

/-- Spec-side Euclidean magnitude: square root of the sum of squares
(defined from the spec's words, for comparison with `magnitude`). -/
noncomputable def euclideanMagnitude (v : List ℝ) : ℝ :=
  Real.sqrt (sumOfSquares v)

/- ===================== Database-mode ranking ===================== -/

/-- A row of the `WebpageEmbedding` table after the embedding column has been
decoded into a numeric vector. -/
structure DBDocument where
  content : String
  url : String
  embedding : List ℝ

/-- One entry of the `similarities` array in the database branch of
`searchEngineForSources`. -/
structure RankedDoc where
  content : String
  url : String
  similarity : ℝ

/-- Scoring of one document against the query embedding, as in
`similarities = documents.map(...)`. -/
noncomputable def scoreDocument (queryEmbedding : List ℝ) (doc : DBDocument) : RankedDoc :=
  ⟨doc.content, doc.url, cosineSimilarity queryEmbedding doc.embedding⟩

/-- The unsorted `similarities` array of the database branch. -/
noncomputable def similarities (queryEmbedding : List ℝ) (docs : List DBDocument) :
    List RankedDoc :=
  docs.map (scoreDocument queryEmbedding)

/-- The descending-similarity order used by the comparator
`(a, b) => b.similarity - a.similarity`. -/
def simGE (a b : RankedDoc) : Prop := b.similarity ≤ a.similarity

noncomputable instance : DecidableRel simGE :=
  fun a b => Real.decidableLE b.similarity a.similarity

instance : IsTotal RankedDoc simGE :=
  ⟨fun a b => Or.symm (le_total a.similarity b.similarity)⟩

instance : IsTrans RankedDoc simGE :=
  ⟨fun _ _ _ hab hbc => le_trans hbc hab⟩

/-- The `similarities` array after `similarities.sort((a, b) => b.similarity -
a.similarity)` (JS `Array.prototype.sort` is a stable sort consistent with the
comparator; it is modelled by insertion sort under `simGE`). -/
noncomputable def sortedSimilarities (queryEmbedding : List ℝ) (docs : List DBDocument) :
    List RankedDoc :=
  List.insertionSort simGE (similarities queryEmbedding docs)

/-- The `topDocuments` selection: `similarities.slice(0, 4)` after sorting. -/
noncomputable def topDocuments (queryEmbedding : List ℝ) (docs : List DBDocument) :
    List RankedDoc :=
  (sortedSimilarities queryEmbedding docs).take 4

/-- The `contextText` passed to the LLM:
`topDocuments.map((doc) => doc.content).join('\n\n')`. -/
noncomputable def contextText (queryEmbedding : List ℝ) (docs : List DBDocument) : String :=
  String.intercalate "\n\n" ((topDocuments queryEmbedding docs).map RankedDoc.content)

/-- The full LLM input of the database branch:
`Context: ${contextText}\n\nQuery: ${message}`. -/
noncomputable def llmInputDB (message : String) (queryEmbedding : List ℝ)
    (docs : List DBDocument) : String :=
  "Context: " ++ contextText queryEmbedding docs ++ "\n\nQuery: " ++ message

/- ===================== Answer streaming (getGPTResults) ===================== -/

/-- The successive values persisted by `updateRowWithGPTResponse` while
`getGPTResults` iterates over the token stream.  Each stream part carries an
optional delta content (`part.choices[0]?.delta?.content`); a part whose delta
is missing or falsy (the empty string) triggers no accumulation and no write.
`acc` is the current `accumulatedContent`. -/
def gptWritesAux (acc : String) : List (Option String) → List String
  | [] => []
  | part :: rest =>
    match part with
    | some delta =>
      if jsTruthyStr delta then
        (acc ++ delta) :: gptWritesAux (acc ++ delta) rest
      else gptWritesAux acc rest
    | none => gptWritesAux acc rest

/-- The sequence of contents written to the GPT row by `getGPTResults`,
starting from the empty `accumulatedContent`. -/
def gptWrites (parts : List (Option String)) : List String :=
  gptWritesAux "" parts

/-- Every content the GPT row ever holds: `createRowForGPTResponse` inserts it
with content `''`, then each write of `gptWrites` overwrites it. -/
def persistedContents (parts : List (Option String)) : List String :=
  "" :: gptWrites parts

/-- Concatenation of all delta contents of a stream prefix, in stream order. -/
def concatDeltas (parts : List (Option String)) : String :=
  String.join (parts.filterMap id)

/-- One string extends another: the later persisted content has the earlier
one as a prefix. -/
def strExt (a b : String) : Prop := ∃ t, a ++ t = b

/- ===================== Web-search mode ===================== -/

/-- A search result entry (after JSON parsing); a missing `title` or `link`
field is modelled as the (falsy) empty string. -/
structure SearchItem where
  title : String
  link : String
deriving Repr, DecidableEq

/-- The source function `normalizeData`: keep entries with truthy title and
link whose link does not contain `brave.com`, take the first 4, and project to
`{ title, link }`. -/
def normalizeData (docs : List SearchItem) : List SearchItem :=
  ((docs.filter (fun d =>
      jsTruthyStr d.title && jsTruthyStr d.link &&
        !(decide ("brave.com".data <:+: d.link.data)))).take 4).map
    (fun d => ⟨d.title, d.link⟩)

/-- The timer used in the `Promise.race` of `fetchAndProcess`. -/
def fetchTimeoutMs : Nat := 5000

/-- Outcome of the external calls made while processing one search item:
the time at which the `fetchPageContent` promise settles, its settled value
(`Except.error` when the fetch rejected), and the outcome of the downstream
chunk/embed/similarity-search calls on the fetched content. -/
structure ItemRun (α : Type) where
  fetchMs : Nat
  fetchResult : Except String String
  downstream : Except String α

/-- The `Promise.race([timer, fetchPromise])` of `fetchAndProcess`: whichever
promise settles first wins; the timer rejects with `Timeout` at
`fetchTimeoutMs` milliseconds. -/
def raceWithTimeout {α : Type} (run : ItemRun α) : Except String String :=
  if run.fetchMs < fetchTimeoutMs then run.fetchResult else Except.error "Timeout"

/-- The source function `fetchAndProcess`: the whole body is wrapped in
`try/catch` with the catch returning `null`; content below 250 characters
also returns `null`; otherwise the similarity-search result is returned. -/
def fetchAndProcess {α : Type} (run : ItemRun α) : Option α :=
  match raceWithTimeout run with
  | Except.error _ => none
  | Except.ok htmlContent =>
    if htmlContent.length < 250 then none
    else
      match run.downstream with
      | Except.error _ => none
      | Except.ok r => some r

/-- The fan-out `await Promise.all(normalizedData.map(fetchAndProcess))`. -/
def webResults {α : Type} (docs : List SearchItem) (run : SearchItem → ItemRun α) :
    List (Option α) :=
  (normalizeData docs).map (fun it => fetchAndProcess (run it))

/-- The filter `results.filter((result) => result !== null)`, with the
non-null values extracted. -/
def successfulResults {α : Type} (docs : List SearchItem) (run : SearchItem → ItemRun α) :
    List α :=
  (webResults docs run).filterMap id

/-- The source selection `successfulResults.length > 4 ?
successfulResults.slice(0, 4) : successfulResults`. -/
def topResult {α : Type} (docs : List SearchItem) (run : SearchItem → ItemRun α) : List α :=
  if (successfulResults docs run).length > 4 then (successfulResults docs run).take 4
  else successfulResults docs run

/- ===================== Follow-up generation ===================== -/

/-- A chat-completion request as assembled by this code: a model name and one
system and one user message. -/
structure ChatRequest where
  model : String
  systemContent : String
  userContent : String
deriving Repr, DecidableEq

/-- The system prompt of `generateFollowup`, verbatim from the source. -/
def followupInstruction (message : String) : String :=
  "You are a follow up answer generator and always respond with 4 follow up questions based on this input \"" ++
    message ++
    "\" in JSON format. i.e. \x7b \"follow_up\": [\"QUESTION_GOES_HERE\", \"QUESTION_GOES_HERE\", \"QUESTION_GOES_HERE\", \"QUESTION_GOES_HERE\"] \x7d"

/-- The user prompt of `generateFollowup`, verbatim from the source. -/
def followupUserPrompt (message : String) : String :=
  "Generate 4 follow up questions based on this input \"" ++ message ++ "\""

/-- The chat-completion request sent by `generateFollowup`. -/
def generateFollowupRequest (message : String) : ChatRequest :=
  ⟨"gpt-4", followupInstruction message, followupUserPrompt message⟩

/-- The source function `generateFollowup`: send the request and return
`chatCompletion.choices[0].message.content` verbatim. The external model is
an argument mapping the request to the returned message content. -/
def generateFollowup (llm : ChatRequest → String) (message : String) : String :=
  llm (generateFollowupRequest message)

/-- The structured JSON shape requested by the prompt:
`{ "follow_up": ["q1", "q2", "q3", "q4"] }` (defined from the spec's words,
to compare with what `generateFollowup` actually returns). -/
def followupJson (qs : List String) : String :=
  "\x7b \"follow_up\": [" ++
    String.intercalate ", " (qs.map (fun q => "\"" ++ q ++ "\"")) ++ "] \x7d"

/-- A string is in the requested structured format when it is the JSON object
above for some list of exactly 4 questions. -/
def isFollowupFormatted (s : String) : Prop :=
  ∃ qs : List String, qs.length = 4 ∧ s = followupJson qs

/- ===================== Progress payloads ===================== -/

/-- The payloads written to the `message_history` table, one constructor per
`type` tag occurring in the source. -/
inductive Payload where
  | query (content : String)
  | sources (content : List SearchItem)
  | vectorCreation (content : String)
  | gptRow (content : String)
  | heading (content : String)
  | gptUpdate (content : String)
  | followUp (content : String)
deriving Repr, DecidableEq

/-- The `sourcesPayload` of the database branch:
`topDocuments.map((doc) => ({ title: doc.content, link: doc.url }))`. -/
noncomputable def sourcesPayload (queryEmbedding : List ℝ) (docs : List DBDocument) :
    List SearchItem :=
  (topDocuments queryEmbedding docs).map (fun d => ⟨d.content, d.url⟩)

/-- The payload writes performed by `triggerLLMAndFollowup`: `getGPTResults`
inserts the empty GPT row, sends the `Heading` payload and performs its row
updates; then the `FollowUp` payload is sent. -/
def triggerTrace (parts : List (Option String)) (followup : String) : List Payload :=
  Payload.gptRow "" :: Payload.heading "Answer" ::
    ((gptWrites parts).map Payload.gptUpdate ++ [Payload.followUp followup])

/-- The payload writes of the database branch of `searchEngineForSources`. -/
noncomputable def searchDBTrace (queryEmbedding : List ℝ) (docs : List DBDocument)
    (parts : List (Option String)) (followup : String) : List Payload :=
  Payload.sources (sourcesPayload queryEmbedding docs) ::
    Payload.vectorCreation "Finished Retrieving Embeddings from Database." ::
      triggerTrace parts followup

/-- The payload writes of the web branch of `searchEngineForSources`. -/
def searchWebTrace (docs : List SearchItem) (parts : List (Option String))
    (followup : String) : List Payload :=
  Payload.sources (normalizeData docs) ::
    Payload.vectorCreation "Finished Scanning Sources." ::
      triggerTrace parts followup

/-- The payload writes of a successfully processed `POST` request: the `Query`
payload, then the branch selected by `embeddingSource`. -/
noncomputable def postTrace (message embeddingSource : String) (queryEmbedding : List ℝ)
    (dbDocs : List DBDocument) (webDocs : List SearchItem)
    (parts : List (Option String)) (followup : String) : List Payload :=
  Payload.query message ::
    (if embeddingSource = "database" then
      searchDBTrace queryEmbedding dbDocs parts followup
    else searchWebTrace webDocs parts followup)

/-- Pipeline stage of a payload, for stating that stages are written in
non-decreasing order. -/
def payloadStage : Payload → Nat
  | Payload.query _ => 0
  | Payload.sources _ => 1
  | Payload.vectorCreation _ => 2
  | Payload.gptRow _ => 3
  | Payload.heading _ => 4
  | Payload.gptUpdate _ => 5
  | Payload.followUp _ => 6

/- ===================== The POST handler ===================== -/

/-- Body of the JSON response returned by the `POST` handler. -/
inductive ResponseBody where
  | message (s : String)
  | errorMsg (s : String)
deriving Repr, DecidableEq

/-- A `NextResponse.json` value: HTTP status plus JSON body
(`NextResponse.json` defaults to status 200). -/
structure ApiResponse where
  status : Nat
  body : ResponseBody
deriving Repr, DecidableEq

/-- The source function `POST`: the whole pipeline runs inside `try`; on
success the 200 `Processing request` response is returned, and any raised
error is caught and turned into the 500 error response.  The argument is the
outcome of the pipeline (request parsing, payload writes, search, LLM calls),
`Except.error` when any of those steps threw. -/
def POST (pipeline : Except String Unit) : ApiResponse :=
  match pipeline with
  | Except.ok _ => ⟨200, ResponseBody.message "Processing request"⟩
  | Except.error _ => ⟨500, ResponseBody.errorMsg "An error occurred while processing the request"⟩

/- ===================== Helper lemmas ===================== -/

theorem foldl_add_sq (l : List ℝ) : ∀ c : ℝ,
    l.foldl (fun sum val => sum + val * val) c = c + (l.map (fun x => x * x)).sum := by
  induction l with
  | nil => intro c; simp
  | cons x xs ih =>
    intro c
    rw [List.foldl_cons, ih, List.map_cons, List.sum_cons]
    ring

theorem magnitude_eq_euclidean (v : List ℝ) : magnitude v = euclideanMagnitude v := by
  unfold magnitude euclideanMagnitude sumOfSquares
  rw [foldl_add_sq, zero_add]

theorem dotProduct_enum_aux (b : List ℝ) (a : List ℝ) : ∀ (n : ℕ) (c : ℝ),
    (List.enumFrom n a).foldl (fun sum p => sum + p.2 * b.getD p.1 0) c
      = c + ((a.zip (b.drop n)).map (fun p => p.1 * p.2)).sum := by
  induction a with
  | nil => intro n c; simp
  | cons x xs ih =>
    intro n c
    by_cases hb : b.length ≤ n
    · have hdrop : b.drop n = [] := List.drop_eq_nil_of_le hb
      have hdrop1 : b.drop (n + 1) = [] := List.drop_eq_nil_of_le (by omega)
      have hget : b.getD n 0 = 0 := by
        rw [List.getD_eq_getElem?_getD, List.getElem?_eq_none hb]
        rfl
      rw [show List.enumFrom n (x :: xs) = (n, x) :: List.enumFrom (n + 1) xs from rfl,
        List.foldl_cons, ih (n + 1), hdrop, hdrop1, hget]
      simp
    · push_neg at hb
      obtain ⟨y, ys, hdrop⟩ : ∃ y ys, b.drop n = y :: ys := by
        cases hd : b.drop n with
        | nil => exact absurd (List.drop_eq_nil_iff.mp hd) (by omega)
        | cons y ys => exact ⟨y, ys, rfl⟩
      have hget : b.getD n 0 = y := by
        rw [List.getD_eq_getElem?_getD, ← List.head?_drop, hdrop]
        rfl
      have hdrop1 : b.drop (n + 1) = ys := by
        rw [← List.tail_drop, hdrop]
        rfl
      rw [show List.enumFrom n (x :: xs) = (n, x) :: List.enumFrom (n + 1) xs from rfl,
        List.foldl_cons, ih (n + 1), hdrop, hdrop1, hget, List.zip_cons_cons,
        List.map_cons, List.sum_cons]
      ring

theorem dotProduct_eq_specDot (a b : List ℝ) : dotProduct a b = specDotProduct a b := by
  unfold dotProduct specDotProduct
  have h := dotProduct_enum_aux b a 0 0
  simpa using h

theorem sumOfSquares_eq_zero_iff (v : List ℝ) : sumOfSquares v = 0 ↔ ∀ x ∈ v, x = 0 := by
  induction v with
  | nil => simp [sumOfSquares]
  | cons x xs ih =>
    unfold sumOfSquares at *
    rw [List.map_cons, List.sum_cons]
    constructor
    · intro h
      have hx : 0 ≤ x * x := mul_self_nonneg x
      have hs : 0 ≤ ((xs.map fun y => y * y)).sum := by
        apply List.sum_nonneg
        intro z hz
        obtain ⟨w, _, rfl⟩ := List.mem_map.mp hz
        exact mul_self_nonneg w
      obtain ⟨h1, h2⟩ := (add_eq_zero_iff_of_nonneg hx hs).mp h
      intro z hz
      rcases List.mem_cons.mp hz with rfl | hz
      · exact mul_self_eq_zero.mp h1
      · exact ih.mp h2 z hz
    · intro h
      have hx : x = 0 := h x (List.mem_cons_self x xs)
      have hs : ((xs.map fun y => y * y)).sum = 0 :=
        ih.mpr (fun z hz => h z (List.mem_cons_of_mem x hz))
      rw [hx, hs, mul_zero, add_zero]

theorem magnitude_eq_zero_iff (v : List ℝ) : magnitude v = 0 ↔ ∀ x ∈ v, x = 0 := by
  rw [magnitude_eq_euclidean]
  unfold euclideanMagnitude
  have hnn : 0 ≤ sumOfSquares v := by
    apply List.sum_nonneg
    intro z hz
    obtain ⟨w, _, rfl⟩ := List.mem_map.mp hz
    exact mul_self_nonneg w
  rw [Real.sqrt_eq_zero']
  constructor
  · intro h
    exact (sumOfSquares_eq_zero_iff v).mp (le_antisymm h hnn)
  · intro h
    rw [(sumOfSquares_eq_zero_iff v).mpr h]

/- ===================== C2 ===================== -/

/-- C2: for every pair of equal-length numeric vectors `a` and `b`,
`cosineSimilarity a b` equals the dot product of `a` and `b` divided by the
product of the Euclidean magnitudes of `a` and `b`. -/
theorem cosineSimilarity_eq_dot_div_magnitudes (a b : List ℝ) (h : a.length = b.length) :
    cosineSimilarity a b =
      specDotProduct a b / (euclideanMagnitude a * euclideanMagnitude b) := by
  unfold cosineSimilarity
  rw [dotProduct_eq_specDot, magnitude_eq_euclidean, magnitude_eq_euclidean]

/-- Witness for C2 at the concrete equal-length pair `[1, 0]`, `[0, 1]`. -/
theorem cosineSimilarity_eq_dot_div_magnitudes_witness :
    cosineSimilarity [1, 0] [0, 1] =
      specDotProduct [1, 0] [0, 1] / (euclideanMagnitude [1, 0] * euclideanMagnitude [0, 1]) :=
  cosineSimilarity_eq_dot_div_magnitudes [1, 0] [0, 1] rfl

/- ===================== C8 ===================== -/

/-- C8: `cosineSimilarity` divides by `magnitude vecA * magnitude vecB` with
no guard: when both magnitudes are non-zero the divisor is non-zero (the
quotient is a well-defined real number), and a vector of zeros drives the
divisor to zero, so the zero-divisor branch of the division is reachable at
the scoring interface (in JS the division then evaluates to `NaN`). -/
theorem cosineSimilarity_unguarded_division :
    (∀ a b : List ℝ, magnitude a ≠ 0 → magnitude b ≠ 0 → cosineDenominator a b ≠ 0) ∧
    (∀ v : List ℝ, magnitude v = 0 ↔ ∀ x ∈ v, x = 0) ∧
    (∀ a b : List ℝ, cosineSimilarity a b = dotProduct a b / cosineDenominator a b) ∧
    cosineDenominator (List.replicate 1536 0) (List.replicate 1536 0) = 0 := by
  refine ⟨fun a b ha hb => mul_ne_zero ha hb, magnitude_eq_zero_iff, fun a b => rfl, ?_⟩
  have hz : magnitude (List.replicate 1536 (0 : ℝ)) = 0 :=
    (magnitude_eq_zero_iff _).mpr (fun x hx => List.eq_of_mem_replicate hx)
  unfold cosineDenominator
  rw [hz, zero_mul]

/-- Witness for C8: at the concrete vectors `[1]`, `[1]` both magnitudes are
non-zero and the divisor is non-zero. -/
theorem cosineSimilarity_unguarded_division_witness :
    cosineDenominator [1] [1] ≠ 0 :=
  cosineSimilarity_unguarded_division.1 [1] [1]
    (by
      have h1 : magnitude [(1 : ℝ)] = Real.sqrt 1 := by
        unfold magnitude
        norm_num
      rw [h1, Real.sqrt_one]
      exact one_ne_zero)
    (by
      have h1 : magnitude [(1 : ℝ)] = Real.sqrt 1 := by
        unfold magnitude
        norm_num
      rw [h1, Real.sqrt_one]
      exact one_ne_zero)

/- ===================== C1 ===================== -/

/-- C1: in database mode, the retrieved rows are each scored by cosine
similarity against the query embedding, the scored list is sorted in
descending order of similarity (a permutation of the scored rows), the top 4
documents are selected, and the context passed to the LLM is exactly the
contents of those top-4 documents, in descending-similarity order, joined by
blank lines. -/
theorem searchEngineForSources_db_ranking (queryEmbedding : List ℝ)
    (docs : List DBDocument) :
    ∃ ranked : List RankedDoc,
      List.Perm ranked (similarities queryEmbedding docs) ∧
      List.Sorted simGE ranked ∧
      similarities queryEmbedding docs =
        docs.map (fun d => ⟨d.content, d.url, cosineSimilarity queryEmbedding d.embedding⟩) ∧
      topDocuments queryEmbedding docs = ranked.take 4 ∧
      contextText queryEmbedding docs =
        String.intercalate "\n\n" ((ranked.take 4).map RankedDoc.content) := by
  refine ⟨sortedSimilarities queryEmbedding docs, ?_, ?_, rfl, rfl, rfl⟩
  · exact List.perm_insertionSort simGE _
  · exact List.sorted_insertionSort simGE _

/- ===================== String helpers for the streaming claims ===================== -/

theorem string_empty_append (s : String) : "" ++ s = s := by
  apply String.ext
  simp [String.data_append]

theorem string_join_cons (s : String) (l : List String) :
    String.join (s :: l) = s ++ String.join l := by
  apply String.ext
  simp [String.join_eq, String.data_append]

theorem concatDeltas_none (rest : List (Option String)) :
    concatDeltas (none :: rest) = concatDeltas rest := by
  simp [concatDeltas]

theorem concatDeltas_some (d : String) (rest : List (Option String)) :
    concatDeltas (some d :: rest) = d ++ concatDeltas rest := by
  simp [concatDeltas, string_join_cons]

theorem gptWritesAux_getLast (parts : List (Option String)) : ∀ acc : String,
    (acc :: gptWritesAux acc parts).getLast? = some (acc ++ concatDeltas parts) := by
  induction parts with
  | nil =>
    intro acc
    simp [gptWritesAux, concatDeltas, String.join]
  | cons p rest ih =>
    intro acc
    cases p with
    | none =>
      rw [show gptWritesAux acc (none :: rest) = gptWritesAux acc rest from rfl,
        ih acc, concatDeltas_none]
    | some d =>
      by_cases hd : d = ""
      · subst hd
        rw [show gptWritesAux acc (some "" :: rest) = gptWritesAux acc rest from rfl,
          ih acc, concatDeltas_some, string_empty_append]
      · have ht : jsTruthyStr d = true := by simp [jsTruthyStr, hd]
        rw [show gptWritesAux acc (some d :: rest) =
            (acc ++ d) :: gptWritesAux (acc ++ d) rest from by simp [gptWritesAux, ht],
          List.getLast?_cons_cons, ih (acc ++ d), concatDeltas_some, String.append_assoc]

theorem mem_gptWritesAux (parts : List (Option String)) : ∀ (acc : String) (w : String),
    w ∈ gptWritesAux acc parts → ∃ t, acc ++ t = w := by
  induction parts with
  | nil =>
    intro acc w hw
    simp [gptWritesAux] at hw
  | cons p rest ih =>
    intro acc w hw
    cases p with
    | none => exact ih acc w hw
    | some d =>
      by_cases hd : d = ""
      · subst hd
        exact ih acc w hw
      · have ht : jsTruthyStr d = true := by simp [jsTruthyStr, hd]
        rw [show gptWritesAux acc (some d :: rest) =
            (acc ++ d) :: gptWritesAux (acc ++ d) rest from by simp [gptWritesAux, ht]] at hw
        rcases List.mem_cons.mp hw with rfl | hw
        · exact ⟨d, rfl⟩
        · obtain ⟨t, ht'⟩ := ih (acc ++ d) w hw
          exact ⟨d ++ t, by rw [← String.append_assoc, ht']⟩

theorem gptWritesAux_pairwise (parts : List (Option String)) : ∀ acc : String,
    List.Pairwise strExt (acc :: gptWritesAux acc parts) := by
  induction parts with
  | nil =>
    intro acc
    simp [gptWritesAux]
  | cons p rest ih =>
    intro acc
    cases p with
    | none => exact ih acc
    | some d =>
      by_cases hd : d = ""
      · subst hd
        exact ih acc
      · have ht : jsTruthyStr d = true := by simp [jsTruthyStr, hd]
        rw [show gptWritesAux acc (some d :: rest) =
            (acc ++ d) :: gptWritesAux (acc ++ d) rest from by simp [gptWritesAux, ht]]
        refine List.Pairwise.cons ?_ (ih (acc ++ d))
        intro w hw
        rcases List.mem_cons.mp hw with rfl | hw
        · exact ⟨d, rfl⟩
        · obtain ⟨t, ht'⟩ := mem_gptWritesAux rest (acc ++ d) w hw
          exact ⟨d ++ t, by rw [← String.append_assoc, ht']⟩

/- ===================== C3 ===================== -/

/-- C3: the answer streamer persists monotonically.  For every prefix of the
token stream the current persisted row content (the last element of
`persistedContents`) equals the concatenation of all delta contents received
so far; every persisted value has each earlier persisted value as a prefix;
and the final persisted answer is the concatenation of all deltas in stream
order. -/
theorem getGPTResults_monotone_persistence (parts : List (Option String)) :
    (∀ n : ℕ, (persistedContents (parts.take n)).getLast? =
      some (concatDeltas (parts.take n))) ∧
    List.Pairwise strExt (persistedContents parts) ∧
    (persistedContents parts).getLast? = some (concatDeltas parts) := by
  refine ⟨fun n => ?_, ?_, ?_⟩
  · have h := gptWritesAux_getLast (parts.take n) ""
    rw [string_empty_append] at h
    exact h
  · exact gptWritesAux_pairwise parts ""
  · have h := gptWritesAux_getLast parts ""
    rw [string_empty_append] at h
    exact h

/- ===================== C4 ===================== -/

/-- C4: in web-search mode each item's fetch-and-process is raced against the
5000 ms timer; when the timer fires first (the fetch settles no earlier than
`fetchTimeoutMs`), or the fetch rejects, or the downstream processing throws,
the item yields `none` instead of propagating the error, and the fan-out over
the normalized items always produces one result slot per item. -/
theorem fetchAndProcess_isolation (α : Type) (run : ItemRun α) :
    (fetchTimeoutMs ≤ run.fetchMs → fetchAndProcess run = none) ∧
    (∀ msg, run.fetchResult = Except.error msg → fetchAndProcess run = none) ∧
    (∀ msg, run.downstream = Except.error msg → fetchAndProcess run = none) ∧
    (∀ (docs : List SearchItem) (runs : SearchItem → ItemRun α),
      (webResults docs runs).length = (normalizeData docs).length) := by
  refine ⟨?_, ?_, ?_, ?_⟩
  · intro h
    unfold fetchAndProcess raceWithTimeout
    rw [if_neg (by omega)]
  · intro msg hmsg
    unfold fetchAndProcess raceWithTimeout
    by_cases ht : run.fetchMs < fetchTimeoutMs
    · rw [if_pos ht, hmsg]
    · rw [if_neg ht]
  · intro msg hmsg
    unfold fetchAndProcess
    cases hr : raceWithTimeout run with
    | error e => rfl
    | ok html =>
      by_cases hl : html.length < 250
      · simp only [hl, if_true]
      · simp only [hl, if_false, hmsg]
  · intro docs runs
    unfold webResults
    rw [List.length_map]

/-- Witness for C4: a concrete item whose fetch settles at 6000 ms (after the
timer) yields `none`. -/
theorem fetchAndProcess_isolation_witness :
    fetchAndProcess (⟨6000, Except.ok "", Except.ok (0 : ℕ)⟩ : ItemRun ℕ) = none :=
  (fetchAndProcess_isolation ℕ ⟨6000, Except.ok "", Except.ok 0⟩).1 (by decide)

/- ===================== C10 ===================== -/

/-- C10: in web-search mode at most 4 normalized search results are ever
processed, any page whose extracted content is shorter than 250 characters
yields `none` (and `none` results are excluded from `successfulResults`), so
`successfulResults` has at most 4 entries and the slice-to-top-4 branch is
unreachable: `topResult` always equals `successfulResults`. -/
theorem webMode_at_most_four (α : Type) (docs : List SearchItem)
    (run : SearchItem → ItemRun α) :
    (normalizeData docs).length ≤ 4 ∧
    (∀ (r : ItemRun α) (html : String), raceWithTimeout r = Except.ok html →
      html.length < 250 → fetchAndProcess r = none) ∧
    (successfulResults docs run).length ≤ 4 ∧
    topResult docs run = successfulResults docs run := by
  have hn : (normalizeData docs).length ≤ 4 := by
    unfold normalizeData
    rw [List.length_map, List.length_take]
    exact min_le_left _ _
  have hs : (successfulResults docs run).length ≤ 4 := by
    unfold successfulResults
    calc ((webResults docs run).filterMap id).length
        ≤ (webResults docs run).length := List.length_filterMap_le id _
      _ = (normalizeData docs).length := by
          unfold webResults
          rw [List.length_map]
      _ ≤ 4 := hn
  refine ⟨hn, ?_, hs, ?_⟩
  · intro r html hr hl
    unfold fetchAndProcess
    rw [hr]
    simp only [hl, if_true]
  · unfold topResult
    rw [if_neg (by omega)]

/-- Witness for C10: a concrete item whose extracted content is shorter than
250 characters yields `none`. -/
theorem webMode_at_most_four_witness :
    fetchAndProcess (⟨0, Except.ok "short", Except.ok (0 : ℕ)⟩ : ItemRun ℕ) = none :=
  (webMode_at_most_four ℕ [] (fun _ => ⟨0, Except.ok "", Except.ok 0⟩)).2.1
    ⟨0, Except.ok "short", Except.ok 0⟩ "short" rfl (by decide)

/- ===================== Stage-order helpers for C5 ===================== -/

theorem stage_tail_head (ups : List String) (y : ℕ)
    (hy : y ∈ ((ups.map fun _ => (5 : ℕ)) ++ [6]).head?) : 5 ≤ y := by
  cases ups with
  | nil =>
    simp at hy
    omega
  | cons x xs =>
    simp at hy
    omega

theorem stage_tail_chain (ups : List String) :
    List.Chain' (· ≤ ·) ((ups.map fun _ => (5 : ℕ)) ++ [6]) := by
  induction ups with
  | nil => simp
  | cons x xs ih =>
    rw [List.map_cons, List.cons_append, List.chain'_cons']
    exact ⟨fun y hy => stage_tail_head xs y hy, ih⟩

theorem shape_stage_sorted (m : String) (s : List SearchItem) (v : String)
    (ups : List String) (fu : String) :
    List.Sorted (· ≤ ·)
      ((Payload.query m :: Payload.sources s :: Payload.vectorCreation v ::
        Payload.gptRow "" :: Payload.heading "Answer" ::
          (ups.map Payload.gptUpdate ++ [Payload.followUp fu])).map payloadStage) := by
  have hcomp : (payloadStage ∘ Payload.gptUpdate) = fun _ : String => (5 : ℕ) :=
    funext fun _ => rfl
  have hmap : (Payload.query m :: Payload.sources s :: Payload.vectorCreation v ::
      Payload.gptRow "" :: Payload.heading "Answer" ::
        (ups.map Payload.gptUpdate ++ [Payload.followUp fu])).map payloadStage =
      0 :: 1 :: 2 :: 3 :: 4 :: ((ups.map fun _ => 5) ++ [6]) := by
    simp only [List.map_cons, List.map_append, List.map_map, hcomp]
    rfl
  rw [hmap]
  apply List.chain'_iff_pairwise.mp
  refine List.chain'_cons.mpr ⟨by omega, ?_⟩
  refine List.chain'_cons.mpr ⟨by omega, ?_⟩
  refine List.chain'_cons.mpr ⟨by omega, ?_⟩
  refine List.chain'_cons.mpr ⟨by omega, ?_⟩
  refine List.chain'_cons'.mpr ⟨?_, stage_tail_chain ups⟩
  intro y hy
  have h5 := stage_tail_head ups y hy
  omega

/- ===================== C5 ===================== -/

/-- C5: for every successfully processed request the payload writes occur in
the fixed order Query, Sources, VectorCreation, empty GPT row, Heading, zero
or more GPT row updates, FollowUp — and the pipeline stages of the written
payloads are non-decreasing, so no later-stage payload is written before an
earlier-stage one. -/
theorem postTrace_payload_order (message embeddingSource : String)
    (queryEmbedding : List ℝ) (dbDocs : List DBDocument) (webDocs : List SearchItem)
    (parts : List (Option String)) (followup : String) :
    (∃ (s : List SearchItem) (v : String) (ups : List String),
      postTrace message embeddingSource queryEmbedding dbDocs webDocs parts followup =
        Payload.query message :: Payload.sources s :: Payload.vectorCreation v ::
          Payload.gptRow "" :: Payload.heading "Answer" ::
            (ups.map Payload.gptUpdate ++ [Payload.followUp followup])) ∧
    List.Sorted (· ≤ ·)
      ((postTrace message embeddingSource queryEmbedding dbDocs webDocs parts
        followup).map payloadStage) := by
  have hshape : ∃ (s : List SearchItem) (v : String) (ups : List String),
      postTrace message embeddingSource queryEmbedding dbDocs webDocs parts followup =
        Payload.query message :: Payload.sources s :: Payload.vectorCreation v ::
          Payload.gptRow "" :: Payload.heading "Answer" ::
            (ups.map Payload.gptUpdate ++ [Payload.followUp followup]) := by
    by_cases hsrc : embeddingSource = "database"
    · exact ⟨sourcesPayload queryEmbedding dbDocs,
        "Finished Retrieving Embeddings from Database.", gptWrites parts,
        by simp [postTrace, hsrc, searchDBTrace, triggerTrace]⟩
    · exact ⟨normalizeData webDocs, "Finished Scanning Sources.", gptWrites parts,
        by simp [postTrace, hsrc, searchWebTrace, triggerTrace]⟩
  refine ⟨hshape, ?_⟩
  obtain ⟨s, v, ups, heq⟩ := hshape
  rw [heq]
  exact shape_stage_sorted message s v ups followup

/- ===================== Whitespace-normalization helpers for C6 ===================== -/

theorem collapseWsAux_head_true (l : List Char) : ∀ c : Char,
    (collapseWsAux true l).head? = some c → jsWhitespace c = false := by
  induction l with
  | nil =>
    intro c hc
    simp [collapseWsAux] at hc
  | cons x xs ih =>
    intro c hc
    by_cases hx : jsWhitespace x = true
    · rw [show collapseWsAux true (x :: xs) = collapseWsAux true xs from by
        simp [collapseWsAux, hx]] at hc
      exact ih c hc
    · rw [show collapseWsAux true (x :: xs) = x :: collapseWsAux false xs from by
        simp [collapseWsAux, hx]] at hc
      have hxc : x = c := by simpa using hc
      subst hxc
      simpa using hx

theorem collapseWsAux_chain (l : List Char) : ∀ b : Bool,
    List.Chain' (fun a c => ¬(jsWhitespace a = true ∧ jsWhitespace c = true))
      (collapseWsAux b l) := by
  induction l with
  | nil =>
    intro b
    simp [collapseWsAux]
  | cons x xs ih =>
    intro b
    by_cases hx : jsWhitespace x = true
    · cases b with
      | true =>
        rw [show collapseWsAux true (x :: xs) = collapseWsAux true xs from by
          simp [collapseWsAux, hx]]
        exact ih true
      | false =>
        rw [show collapseWsAux false (x :: xs) = ' ' :: collapseWsAux true xs from by
          simp [collapseWsAux, hx]]
        rw [List.chain'_cons']
        refine ⟨?_, ih true⟩
        intro y hy
        rintro ⟨-, hy2⟩
        have hh := collapseWsAux_head_true xs y hy
        rw [hh] at hy2
        exact Bool.false_ne_true hy2
    · rw [show collapseWsAux b (x :: xs) = x :: collapseWsAux false xs from by
        simp [collapseWsAux, hx]]
      rw [List.chain'_cons']
      refine ⟨?_, ih false⟩
      intro y hy
      rintro ⟨hx2, -⟩
      exact hx hx2

theorem head_dropWhile_not (p : Char → Bool) (l : List Char) : ∀ c : Char,
    (l.dropWhile p).head? = some c → p c = false := by
  induction l with
  | nil =>
    intro c hc
    simp at hc
  | cons x xs ih =>
    intro c hc
    by_cases hx : p x = true
    · rw [show (x :: xs).dropWhile p = xs.dropWhile p from by
        simp [List.dropWhile_cons, hx]] at hc
      exact ih c hc
    · rw [show (x :: xs).dropWhile p = x :: xs from by
        simp [List.dropWhile_cons, hx]] at hc
      have hxc : x = c := by simpa using hc
      subst hxc
      simpa using hx

theorem head_of_isPrefix {l p : List Char} (h : p <+: l) (c : Char)
    (hc : p.head? = some c) : l.head? = some c := by
  obtain ⟨t, rfl⟩ := h
  cases p with
  | nil => simp at hc
  | cons x xs => simpa using hc

theorem jsTrim_data_isPrefix (s : String) :
    (jsTrim s).data <+: s.data.dropWhile jsWhitespace := by
  have h1 : (s.data.dropWhile jsWhitespace).reverse.dropWhile jsWhitespace <:+
      (s.data.dropWhile jsWhitespace).reverse := List.dropWhile_suffix jsWhitespace
  have h2 := List.reverse_prefix.mpr h1
  rw [List.reverse_reverse] at h2
  exact h2

theorem jsTrim_head (s : String) (c : Char)
    (hc : (jsTrim s).data.head? = some c) : jsWhitespace c = false := by
  have hh := head_of_isPrefix (jsTrim_data_isPrefix s) c hc
  exact head_dropWhile_not jsWhitespace s.data c hh

theorem jsTrim_getLast (s : String) (c : Char)
    (hc : (jsTrim s).data.getLast? = some c) : jsWhitespace c = false := by
  have hc' : ((s.data.dropWhile jsWhitespace).reverse.dropWhile jsWhitespace).head? =
      some c := by
    have hd : (jsTrim s).data =
        ((s.data.dropWhile jsWhitespace).reverse.dropWhile jsWhitespace).reverse := rfl
    rw [hd, List.getLast?_reverse] at hc
    exact hc
  exact head_dropWhile_not jsWhitespace _ c hc'

theorem jsTrim_chain (s : String) (R : Char → Char → Prop)
    (h : List.Chain' R s.data) : List.Chain' R (jsTrim s).data := by
  have h1 : List.Chain' R (s.data.dropWhile jsWhitespace) :=
    h.suffix (List.dropWhile_suffix jsWhitespace)
  exact h1.prefix (jsTrim_data_isPrefix s)

/- ===================== C6 ===================== -/

/-- C6: `extractMainContent` prunes every `script`, `style`, `head`, `nav`,
`footer`, `iframe` and `img` element (with its subtree) before taking the
body text, and its result is fully normalized: no leading whitespace
character, no trailing whitespace character, and never two consecutive
whitespace characters. -/
theorem extractMainContent_normalized (body : List HtmlNode) :
    (∀ c : Char, (extractMainContent body).data.head? = some c →
      jsWhitespace c = false) ∧
    (∀ c : Char, (extractMainContent body).data.getLast? = some c →
      jsWhitespace c = false) ∧
    List.Chain' (fun a b => ¬(jsWhitespace a = true ∧ jsWhitespace b = true))
      (extractMainContent body).data ∧
    (∀ (tag : String) (cs : List HtmlNode), removedTags.contains tag = true →
      pruneNode (HtmlNode.elem tag cs) = none) := by
  refine ⟨?_, ?_, ?_, ?_⟩
  · intro c hc
    exact jsTrim_head (collapseWs (listText (pruneList body))) c hc
  · intro c hc
    exact jsTrim_getLast (collapseWs (listText (pruneList body))) c hc
  · apply jsTrim_chain
    exact collapseWsAux_chain (listText (pruneList body)).data false
  · intro tag cs hmem
    have hm : tag ∈ removedTags := by simpa using hmem
    simp [pruneNode, hm]

/-- Witness for C6: the `script` tag is pruned at a concrete element. -/
theorem extractMainContent_normalized_witness :
    pruneNode (HtmlNode.elem "script" []) = none :=
  (extractMainContent_normalized []).2.2.2 "script" [] rfl

/- ===================== C7 ===================== -/

theorem followupJson_head (qs : List String) :
    (followupJson qs).data.head? = some '\x7b' := by
  unfold followupJson
  rw [String.data_append, String.data_append]
  rfl

/-- C7 counterexample: `generateFollowup` returns the model's message content
verbatim, so when the model replies with a string that is not the structured
JSON object the returned value is not a 4-question `follow_up` JSON object:
the claimed format guarantee fails. -/
theorem generateFollowup_not_always_formatted :
    ¬ isFollowupFormatted (generateFollowup (fun _ => "BANANA") "hello") := by
  rintro ⟨qs, -, he⟩
  have hh := followupJson_head qs
  rw [← he] at hh
  exact absurd hh (by decide)

/-- C7 amended: `generateFollowup` asks (in both prompts, using model
`gpt-4`) for exactly 4 follow-up questions in the JSON format
`{ "follow_up": [...] }` and returns the model's message content verbatim;
the result is in the structured 4-question format whenever the model's
response is. -/
theorem generateFollowup_verbatim (llm : ChatRequest → String) (message : String) :
    generateFollowup llm message = llm (generateFollowupRequest message) ∧
    (generateFollowupRequest message).model = "gpt-4" ∧
    (generateFollowupRequest message).systemContent = followupInstruction message ∧
    (generateFollowupRequest message).userContent = followupUserPrompt message ∧
    (∀ qs : List String, qs.length = 4 →
      llm (generateFollowupRequest message) = followupJson qs →
      isFollowupFormatted (generateFollowup llm message)) := by
  refine ⟨rfl, rfl, rfl, rfl, ?_⟩
  intro qs h4 hresp
  exact ⟨qs, h4, hresp⟩

/-- Witness for C7 (amended): with a compliant model response the returned
value is in the structured format. -/
theorem generateFollowup_verbatim_witness :
    isFollowupFormatted
      (generateFollowup (fun _ => followupJson ["a", "b", "c", "d"]) "m") :=
  (generateFollowup_verbatim (fun _ => followupJson ["a", "b", "c", "d"]) "m").2.2.2.2
    ["a", "b", "c", "d"] rfl rfl

/- ===================== C9 ===================== -/

/-- C9: the `POST` handler never rejects: every pipeline outcome is mapped to
exactly one of two JSON responses — status 200 with `Processing request` on
success, status 500 with the fixed error message when any step threw. -/
theorem POST_two_outcomes :
    (∀ p : Except String Unit,
      POST p = ⟨200, ResponseBody.message "Processing request"⟩ ∨
      POST p = ⟨500, ResponseBody.errorMsg "An error occurred while processing the request"⟩) ∧
    POST (Except.ok ()) = ⟨200, ResponseBody.message "Processing request"⟩ ∧
    (∀ e : String, POST (Except.error e) =
      ⟨500, ResponseBody.errorMsg "An error occurred while processing the request"⟩) := by
  refine ⟨fun p => ?_, rfl, fun e => rfl⟩
  cases p with
  | ok u => exact Or.inl rfl
  | error e => exact Or.inr rfl
